import Mathlib

/-!
Verification of `MotionPhotoMuxer.py`: a shallow embedding of the muxing
pipeline (directory scan, pair matching, validation, photo/video merge,
XMP offset metadata) over an explicit file-system state, together with
theorems settling the specified properties.

Bytes are modelled as `Nat`; a file system is an association list from
path strings to byte contents, plus a per-file XMP tag table.
-/

namespace MPM

/-- Association-list lookup by string key (first match wins). -/
def lookupA {α : Type} : List (String × α) → String → Option α
  | [], _ => none
  | (k0, v0) :: rest, k => if k0 = k then some v0 else lookupA rest k

/-- Association-list update: overwrite the first binding of the key, or
append a new binding at the end. -/
def setA {α : Type} : List (String × α) → String → α → List (String × α)
  | [], k, v => [(k, v)]
  | (k0, v0) :: rest, k, v =>
    if k0 = k then (k, v) :: rest else (k0, v0) :: setA rest k v

/-- File-system state: file contents (bytes as `Nat`) plus per-file XMP
tag tables written by the metadata step. -/
structure FS where
  files : List (String × List Nat)
  xmp : List (String × List (String × Nat))
deriving DecidableEq

/-- Content of a file, `none` when the path does not exist (an open in
the Python source raises there). -/
def readF (fs : FS) (p : String) : Option (List Nat) := lookupA fs.files p

/-- Create or overwrite a file (Python `open(p, "wb")` + write). -/
def writeF (fs : FS) (p : String) (c : List Nat) : FS :=
  { fs with files := setA fs.files p c }

/-- Model of `os.path.exists`. -/
def exists_file (fs : FS) (p : String) : Bool := (readF fs p).isSome

/-- Model of `os.path.getsize` (0 for a missing file; the sources only call it on
files whose existence was established). -/
def sizeF (fs : FS) (p : String) : Nat := ((readF fs p).getD []).length

/-! ### Path helpers (`os.path` fragment used by the source) -/

/-- Python `str.lower`, restricted to the ASCII case the paths use. -/
def lowerS (s : String) : String := String.mk (s.toList.map Char.toLower)

/-- Python `str.endswith`. -/
def endsWithS (s suffix : String) : Bool :=
  suffix.toList.isSuffixOf s.toList

/-- Python `str.startswith`. -/
def startsWithS (s pre : String) : Bool :=
  pre.toList.isPrefixOf s.toList

/-- Characters after the last slash. -/
def basenameL (s : List Char) : List Char :=
  s.foldl (fun acc c => if c = '/' then [] else acc ++ [c]) []

/-- Model of `os.path.basename`: the part after the last slash. -/
def basename (p : String) : String := String.mk (basenameL p.toList)

/-- Core of `os.path.splitext` on a bare file name: split off the
extension at the last dot, but leading dots never start an extension. -/
def splitextAux (bn : List Char) : List Char × List Char :=
  let lead := bn.takeWhile (· = '.')
  let rest := bn.drop lead.length
  match rest.reverse.findIdx? (· = '.') with
  | none => (bn, [])
  | some i =>
    let cut := rest.length - 1 - i
    (lead ++ rest.take cut, rest.drop cut)

/-- Model of `os.path.splitext`: root (with directory part) and extension. -/
def splitextS (p : String) : String × String :=
  let s := p.toList
  let bn := basenameL s
  let dir := s.take (s.length - bn.length)
  let (r, e) := splitextAux bn
  (String.mk (dir ++ r), String.mk e)

/-- Model of `os.path.join` for the relative-path shapes the source produces. -/
def joinPath (a b : String) : String :=
  if a = "" then b
  else if startsWithS b "/" then b
  else if endsWithS a "/" then a ++ b
  else a ++ "/" ++ b

/-! ### The program (`MotionPhotoMuxer.py`) -/

/-- Embedding of `validate_media(photo_path, video_path)`: photo exists, video exists,
photo ends in `.jpg`/`.jpeg` (case-insensitive), video ends in
`.mov`/`.mp4` (case-insensitive); first failure wins. -/
def validate_media (fs : FS) (photo_path video_path : String) : Bool :=
  if exists_file fs photo_path = false then false
  else if exists_file fs video_path = false then false
  else if (endsWithS (lowerS photo_path) ".jpg" ||
           endsWithS (lowerS photo_path) ".jpeg") = false then false
  else if (endsWithS (lowerS video_path) ".mov" ||
           endsWithS (lowerS video_path) ".mp4") = false then false
  else true

/-- Embedding of `merge_files(photo_path, video_path, output_path)`: the output path is
`output_path` joined with the photo's basename; `open(out_path, "wb")`
truncates the output first, then photo bytes and video bytes are read and
written in order. `none` in the first component models the
`FileNotFoundError` raised when an input cannot be opened (the truncated
output file still exists in that case). -/
def merge_files (fs : FS) (photo_path video_path output_path : String) :
    Option String × FS :=
  let out_path := joinPath output_path (basename photo_path)
  let fs0 := writeF fs out_path []
  match readF fs0 photo_path with
  | none => (none, fs0)
  | some p =>
    match readF fs0 video_path with
    | none => (none, fs0)
    | some v => (some out_path, writeF fs0 out_path (p ++ v))

/-- The four `Xmp.GCamera` tag assignments performed by
`add_xmp_metadata`, in source order. -/
def gcameraTags (offset : Nat) : List (String × Nat) :=
  [("Xmp.GCamera.MicroVideo", 1),
   ("Xmp.GCamera.MicroVideoVersion", 1),
   ("Xmp.GCamera.MicroVideoOffset", offset),
   ("Xmp.GCamera.MicroVideoPresentationTimestampUs", 1500000)]

/-- Tag table of a file (empty when none was ever written). -/
def getTags (fs : FS) (p : String) : List (String × Nat) :=
  (lookupA fs.xmp p).getD []

/-- One XMP tag of a file. -/
def getTag (fs : FS) (p k : String) : Option Nat := lookupA (getTags fs p) k

/-- Apply a list of tag assignments in order (dict-style overwrite, as
`metadata[key] = XmpTag(...)` does). -/
def setTags (tags upd : List (String × Nat)) : List (String × Nat) :=
  upd.foldl (fun acc kv => setA acc kv.1 kv.2) tags

/-- Embedding of `add_xmp_metadata(merged_file, offset)`: sets the four `GCamera` tags
on the merged file and writes the metadata back. `metaOk` is the oracle
for whether `metadata.write()` succeeds; `none` models the uncaught
exception on failure. (The namespace-registration `KeyError` is caught in
the source and has no observable effect.) -/
def add_xmp_metadata (metaOk : String → Bool) (fs : FS)
    (merged_file : String) (offset : Nat) : Option FS :=
  if metaOk merged_file then
    some { fs with
           xmp := setA fs.xmp merged_file
                    (setTags (getTags fs merged_file) (gcameraTags offset)) }
  else none

/-- Observable outcome of one `convert` call: the early `return False` at
the size gate, normal completion (carrying the merged path and the offset
passed to `add_xmp_metadata`), or an uncaught exception. -/
inductive CResult where
  | skipped
  | completed (out_path : String) (offset : Nat)
  | failed
deriving DecidableEq

/-- The HEIC branch of `convert`: when the photo ends in `.heic`
(case-insensitive), decode it and save a JPEG at the sibling path
`splitext(photo)[0] + ".jpg"`, which becomes the photo path. `heicToJpeg`
is the external pyheif/PIL decode-and-reencode, a pure function on
bytes. `none` models the exception when the photo cannot be opened. -/
def heic_step (heicToJpeg : List Nat → List Nat) (fs : FS)
    (photo_path : String) : Option (String × FS) :=
  if endsWithS (lowerS photo_path) ".heic" then
    match readF fs photo_path with
    | none => none
    | some c =>
      let jpeg_path := (splitextS photo_path).1 ++ ".jpg"
      some (jpeg_path, writeF fs jpeg_path (heicToJpeg c))
  else some (photo_path, fs)

/-- Body of `convert` after the size gate: optional HEIC conversion, then
`merge_files`, then `offset = merged_filesize - photo_filesize` (both
sizes measured after the merge), then `add_xmp_metadata`. -/
def convert_after_gate (heicToJpeg : List Nat → List Nat)
    (metaOk : String → Bool) (fs : FS)
    (photo_path video_path output_path : String) : CResult × FS :=
  match heic_step heicToJpeg fs photo_path with
  | none => (CResult.failed, fs)
  | some (photo1, fs1) =>
    match merge_files fs1 photo1 video_path output_path with
    | (none, fs2) => (CResult.failed, fs2)
    | (some merged, fs2) =>
      let photo_filesize := sizeF fs2 photo1
      let merged_filesize := sizeF fs2 merged
      let offset := merged_filesize - photo_filesize
      match add_xmp_metadata metaOk fs2 merged offset with
      | none => (CResult.failed, fs2)
      | some fs3 => (CResult.completed merged offset, fs3)

/-- Embedding of `convert(photo_path, video_path, output_path, convert_all)`: unless
`convert_all` is set, skip (returning `False`, touching nothing) when the
video is missing or larger than `10 * 1024 * 1024` bytes. -/
def convert (heicToJpeg : List Nat → List Nat) (metaOk : String → Bool)
    (fs : FS) (photo_path video_path output_path : String)
    (convert_all : Bool) : CResult × FS :=
  if convert_all then
    convert_after_gate heicToJpeg metaOk fs photo_path video_path output_path
  else if exists_file fs video_path = false ∨
          10 * 1024 * 1024 < sizeF fs video_path then
    (CResult.skipped, fs)
  else
    convert_after_gate heicToJpeg metaOk fs photo_path video_path output_path

/-- The probe loop of `matching_video`: try the extensions in order and
return the first candidate that exists, else the empty string. -/
def probe (fs : FS) (base : String) : List String → String
  | [] => ""
  | ext :: rest =>
    if exists_file fs (base ++ ext) then base ++ ext else probe fs base rest

/-- Embedding of `matching_video(photo_path)`: probe `base + ext` for
`ext ∈ [.mov, .mp4, .MOV, .MP4]` in that order. -/
def matching_video (fs : FS) (photo_path : String) : String :=
  probe fs (splitextS photo_path).1 [".mov", ".mp4", ".MOV", ".MP4"]

/-- The `os.walk` loop body of `process_directory`: every file under
`dir` (at any depth — `os.walk` is unconditionally recursive) whose
extension is `.jpg`/`.jpeg`/`.heic` (case-insensitive) and whose
`matching_video` is nonempty contributes a pair, in traversal order. -/
def collect_pairs (fs : FS) (dir : String) :
    List (String × List Nat) → List (String × String)
  | [] => []
  | (p, _) :: rest =>
    if startsWithS p (dir ++ "/") &&
       (lowerS (splitextS p).2 = ".jpg" || lowerS (splitextS p).2 = ".jpeg" ||
        lowerS (splitextS p).2 = ".heic") then
      let video_path := matching_video fs p
      if video_path ≠ "" then (p, video_path) :: collect_pairs fs dir rest
      else collect_pairs fs dir rest
    else collect_pairs fs dir rest

/-- Embedding of `process_directory(file_dir, recurse)`: note that the body walks the
whole tree with `os.walk` and never consults `recurse`. -/
def process_directory (fs : FS) (file_dir : String) (recurse : Bool) :
    List (String × String) :=
  collect_pairs fs file_dir fs.files

/-- The per-pair loop of `main`: `if validate_media(pair): convert(pair);
processed_files.add(pair[0]); processed_files.add(pair[1])`. The additions
run whenever `convert` returns normally (its return value is ignored); an
uncaught exception inside `convert` aborts the whole loop (first
component `true`), leaving the remaining pairs unprocessed. -/
def run_pairs (heicToJpeg : List Nat → List Nat) (metaOk : String → Bool)
    (fs : FS) (out_dir : String) (convert_all : Bool)
    (processed : List String) :
    List (String × String) → Bool × FS × List String
  | [] => (false, fs, processed)
  | (p, v) :: rest =>
    if validate_media fs p v then
      match convert heicToJpeg metaOk fs p v out_dir convert_all with
      | (CResult.failed, fs1) => (true, fs1, processed)
      | (_, fs1) =>
        run_pairs heicToJpeg metaOk fs1 out_dir convert_all
          (processed ++ [p, v]) rest
    else run_pairs heicToJpeg metaOk fs out_dir convert_all processed rest

/-- The conversion part of `main`: discover pairs with
`process_directory(source_dir, recurse=False)` and run the per-pair
loop with an empty processed set. -/
def main_run (heicToJpeg : List Nat → List Nat) (metaOk : String → Bool)
    (fs : FS) (source_dir out_dir : String) (convert_all : Bool) :
    Bool × FS × List String :=
  run_pairs heicToJpeg metaOk fs out_dir convert_all []
    (process_directory fs source_dir false)

/-! ### Fixtures: concrete inputs used by witnesses and counterexamples -/

/-- Stand-in for the external HEIC decode + JPEG re-encode. -/
def jpegEnc : List Nat → List Nat := fun c => 9 :: c

/-- Metadata writing always succeeds. -/
def metaOkAll : String → Bool := fun _ => true

/-- Metadata writing always raises. -/
def metaOkNone : String → Bool := fun _ => false

def fsAliasA : FS := ⟨[("d/a.jpg", [1, 2]), ("d/a.mp4", [3])], []⟩

def fsAliasB : FS := ⟨[("e/b.jpg", [5, 6]), ("e/b.mp4", [7])], []⟩

def fsMerge : FS := ⟨[("d/w.jpg", [1, 2]), ("d/w.mp4", [3, 4, 5])], []⟩

def fsPrefer : FS := ⟨[("d/a.jpg", [1]), ("d/a.mov", [2]), ("d/a.mp4", [3])], []⟩

def fsTree : FS := ⟨[("root/sub/a.jpg", [1]), ("root/sub/a.mov", [2])], []⟩

def fsHeic : FS := ⟨[("root/img2.heic", [7, 7]), ("root/img2.mp4", [8])], []⟩

def fsHeicOv : FS :=
  ⟨[("root/img2.heic", [7, 7]), ("root/img2.mp4", [8]), ("root/img2.jpg", [0])], []⟩

def fsTwoPairs : FS :=
  ⟨[("d/a.jpg", [1]), ("d/a.mp4", [2]), ("d/b.jpg", [3]), ("d/b.mp4", [4])], []⟩

/-- A video exactly one byte over the 10 MiB ceiling. -/
def fsGate : FS := ⟨[("d/g.jpg", [0]), ("d/g.mp4", List.replicate 10485761 0)], []⟩

/-! ### Basic lemmas about the file-system model -/

theorem lookupA_setA_same {α : Type} (l : List (String × α)) (k : String) (v : α) :
    lookupA (setA l k v) k = some v := by
  induction l with
  | nil => simp [setA, lookupA]
  | cons hd tl ih =>
    obtain ⟨k0, v0⟩ := hd
    by_cases h : k0 = k
    · simp [setA, lookupA, h]
    · simp [setA, lookupA, h, ih]

theorem lookupA_setA_ne {α : Type} (l : List (String × α)) (k k' : String) (v : α)
    (h : k ≠ k') : lookupA (setA l k v) k' = lookupA l k' := by
  induction l with
  | nil => simp [setA, lookupA, h]
  | cons hd tl ih =>
    obtain ⟨k0, v0⟩ := hd
    by_cases h0 : k0 = k
    · subst h0
      simp [setA, lookupA, h]
    · simp [setA, lookupA, h0, ih]

theorem readF_writeF_same (fs : FS) (p : String) (c : List Nat) :
    readF (writeF fs p c) p = some c := by
  simp [readF, writeF, lookupA_setA_same]

theorem readF_writeF_ne (fs : FS) (p q : String) (c : List Nat) (h : p ≠ q) :
    readF (writeF fs p c) q = readF fs q := by
  simp [readF, writeF, lookupA_setA_ne _ _ _ _ h]

theorem sizeF_writeF_same (fs : FS) (p : String) (c : List Nat) :
    sizeF (writeF fs p c) p = c.length := by
  simp [sizeF, readF_writeF_same]

theorem sizeF_writeF_ne (fs : FS) (p q : String) (c : List Nat) (h : p ≠ q) :
    sizeF (writeF fs p c) q = sizeF fs q := by
  simp [sizeF, readF_writeF_ne _ _ _ _ h]

theorem sizeF_of_readF (fs : FS) (p : String) (c : List Nat)
    (h : readF fs p = some c) : sizeF fs p = c.length := by
  simp [sizeF, h]

theorem exists_file_iff_readF (fs : FS) (p : String) :
    exists_file fs p = true ↔ ∃ c, readF fs p = some c := by
  cases h : readF fs p <;> simp [exists_file, h]

/-! ### Sanity checks for the path helpers -/

example : splitextS "d/a.jpg" = ("d/a", ".jpg") := by decide
example : splitextS "photos/img2.heic" = ("photos/img2", ".heic") := by decide
example : basename "d/sub/a.jpg" = "a.jpg" := by decide
example : joinPath "out" "a.jpg" = "out/a.jpg" := by decide
example : lowerS "A.JPG" = "a.jpg" := by decide
example : endsWithS "d/a.jpg" ".jpg" = true := by decide

/-! ### Structural lemmas about the program -/

theorem readF_files_congr (fs1 fs2 : FS) (h : fs1.files = fs2.files)
    (p : String) : readF fs1 p = readF fs2 p := by
  simp [readF, h]

theorem sizeF_files_congr (fs1 fs2 : FS) (h : fs1.files = fs2.files)
    (p : String) : sizeF fs1 p = sizeF fs2 p := by
  simp [sizeF, readF, h]

theorem add_xmp_metadata_files (metaOk : String → Bool) (fs : FS)
    (merged_file : String) (offset : Nat) (fs2 : FS)
    (h : add_xmp_metadata metaOk fs merged_file offset = some fs2) :
    fs2.files = fs.files := by
  unfold add_xmp_metadata at h
  split at h
  · injection h with h
    rw [← h]
  · exact absurd h (by simp)

theorem convert_after_gate_fst_ne_skipped (heicToJpeg : List Nat → List Nat)
    (metaOk : String → Bool) (fs : FS)
    (photo_path video_path output_path : String) :
    (convert_after_gate heicToJpeg metaOk fs photo_path video_path
      output_path).1 ≠ CResult.skipped := by
  unfold convert_after_gate
  split
  · simp
  · split
    · simp
    · dsimp only
      split <;> simp

theorem convert_eq_after_gate (heicToJpeg : List Nat → List Nat)
    (metaOk : String → Bool) (fs : FS)
    (photo_path video_path output_path : String) (convert_all : Bool)
    (r : CResult) (fs2 : FS)
    (h : convert heicToJpeg metaOk fs photo_path video_path output_path
           convert_all = (r, fs2))
    (hr : r ≠ CResult.skipped) :
    convert_after_gate heicToJpeg metaOk fs photo_path video_path output_path
      = (r, fs2) := by
  unfold convert at h
  split at h
  · exact h
  · split at h
    · exact absurd (congrArg Prod.fst h.symm) hr
    · exact h

theorem probe_eq_find (fs : FS) (base : String) (l : List String) :
    probe fs base l =
      ((l.map (fun ext => base ++ ext)).find?
        (fun q => exists_file fs q)).getD "" := by
  induction l with
  | nil => rfl
  | cons e rest ih =>
    cases h : exists_file fs (base ++ e)
    · simp [probe, h, List.find?, ih]
    · simp [probe, h, List.find?]

/-- C3: with the convert-all override off, `convert` skips (returning with
an untouched file system) exactly when the video is missing or strictly
larger than `10 * 1024 * 1024` bytes; with the override on, it never
skips. A video of exactly 10 MiB therefore is not skipped and one of
10 MiB + 1 bytes is. -/
theorem convert_size_gate_iff (heicToJpeg : List Nat → List Nat)
    (metaOk : String → Bool) (fs : FS)
    (photo_path video_path output_path : String) :
    ((convert heicToJpeg metaOk fs photo_path video_path output_path false
        = (CResult.skipped, fs)) ↔
      (exists_file fs video_path = false ∨
        10 * 1024 * 1024 < sizeF fs video_path)) ∧
    (∀ fs2 : FS, convert heicToJpeg metaOk fs photo_path video_path
        output_path true ≠ (CResult.skipped, fs2)) := by
  constructor
  · constructor
    · intro h
      by_contra hc
      have h2 : convert heicToJpeg metaOk fs photo_path video_path
          output_path false
          = convert_after_gate heicToJpeg metaOk fs photo_path video_path
              output_path := by
        unfold convert
        simp [hc]
      rw [h2] at h
      exact convert_after_gate_fst_ne_skipped heicToJpeg metaOk fs photo_path
        video_path output_path (congrArg Prod.fst h)
    · intro hc
      unfold convert
      simp [hc]
  · intro fs2 h
    have h2 : convert heicToJpeg metaOk fs photo_path video_path
        output_path true
        = convert_after_gate heicToJpeg metaOk fs photo_path video_path
            output_path := by
      unfold convert
      simp
    rw [h2] at h
    exact convert_after_gate_fst_ne_skipped heicToJpeg metaOk fs photo_path
      video_path output_path (congrArg Prod.fst h)

/-- C4: `matching_video` probes the sibling paths with extensions
`.mov`, `.mp4`, `.MOV`, `.MP4` in that fixed order and returns the first
existing one (the empty string when none exists); in particular when both
`d/a.mov` and `d/a.mp4` exist next to `d/a.jpg`, the `.mov` sibling is
chosen. -/
theorem matching_video_preference :
    (∀ (fs : FS) (photo_path : String),
      matching_video fs photo_path =
        (([".mov", ".mp4", ".MOV", ".MP4"].map
            (fun ext => (splitextS photo_path).1 ++ ext)).find?
          (fun q => exists_file fs q)).getD "") ∧
    matching_video fsPrefer "d/a.jpg" = "d/a.mov" := by
  constructor
  · intro fs photo_path
    exact probe_eq_find fs (splitextS photo_path).1 _
  · decide

/-- C8: a successful `add_xmp_metadata` sets exactly the four `GCamera`
XMP fields on the merged file — `MicroVideo = 1`, `MicroVideoVersion = 1`,
`MicroVideoOffset = offset`, `MicroVideoPresentationTimestampUs =
1500000` — every other tag and all file contents are untouched. -/
theorem add_xmp_metadata_four_fields (metaOk : String → Bool) (fs : FS)
    (merged_file : String) (offset : Nat) (k : String)
    (hm : metaOk merged_file = true)
    (hk : k ∉ ["Xmp.GCamera.MicroVideo", "Xmp.GCamera.MicroVideoVersion",
               "Xmp.GCamera.MicroVideoOffset",
               "Xmp.GCamera.MicroVideoPresentationTimestampUs"]) :
    ∀ fs2 : FS, add_xmp_metadata metaOk fs merged_file offset = some fs2 →
      getTag fs2 merged_file "Xmp.GCamera.MicroVideo" = some 1 ∧
      getTag fs2 merged_file "Xmp.GCamera.MicroVideoVersion" = some 1 ∧
      getTag fs2 merged_file "Xmp.GCamera.MicroVideoOffset" = some offset ∧
      getTag fs2 merged_file "Xmp.GCamera.MicroVideoPresentationTimestampUs"
        = some 1500000 ∧
      getTag fs2 merged_file k = getTag fs merged_file k ∧
      fs2.files = fs.files := by
  intro fs2 h
  simp only [List.mem_cons, List.not_mem_nil, or_false, not_or] at hk
  obtain ⟨hk1, hk2, hk3, hk4⟩ := hk
  unfold add_xmp_metadata at h
  rw [if_pos hm] at h
  injection h with h
  subst h
  have htags : getTags
      { fs with
        xmp := setA fs.xmp merged_file
                 (setTags (getTags fs merged_file) (gcameraTags offset)) }
      merged_file
      = setTags (getTags fs merged_file) (gcameraTags offset) := by
    simp [getTags, lookupA_setA_same]
  have hTdef : setTags (getTags fs merged_file) (gcameraTags offset)
      = setA (setA (setA (setA (getTags fs merged_file)
          "Xmp.GCamera.MicroVideo" 1) "Xmp.GCamera.MicroVideoVersion" 1)
          "Xmp.GCamera.MicroVideoOffset" offset)
          "Xmp.GCamera.MicroVideoPresentationTimestampUs" 1500000 := rfl
  refine ⟨?_, ?_, ?_, ?_, ?_, rfl⟩
  · show getTag _ _ _ = _
    rw [getTag, htags, hTdef,
      lookupA_setA_ne _ _ _ _ (by decide), lookupA_setA_ne _ _ _ _ (by decide),
      lookupA_setA_ne _ _ _ _ (by decide), lookupA_setA_same]
  · rw [getTag, htags, hTdef,
      lookupA_setA_ne _ _ _ _ (by decide), lookupA_setA_ne _ _ _ _ (by decide),
      lookupA_setA_same]
  · rw [getTag, htags, hTdef,
      lookupA_setA_ne _ _ _ _ (by decide), lookupA_setA_same]
  · rw [getTag, htags, hTdef, lookupA_setA_same]
  · rw [getTag, htags, hTdef,
      lookupA_setA_ne _ _ _ _ (Ne.symm hk4), lookupA_setA_ne _ _ _ _ (Ne.symm hk3),
      lookupA_setA_ne _ _ _ _ (Ne.symm hk2), lookupA_setA_ne _ _ _ _ (Ne.symm hk1)]
    rfl

/-- C8 witness: concrete run of `add_xmp_metadata` on an empty tag table
with offset 42; the offset field reads back as 42. -/
theorem add_xmp_metadata_four_fields_witness :
    getTag (⟨[], [("o/a.jpg", gcameraTags 42)]⟩ : FS) "o/a.jpg"
      "Xmp.GCamera.MicroVideoOffset" = some 42 :=
  (add_xmp_metadata_four_fields metaOkAll ⟨[], []⟩ "o/a.jpg" 42 "Xmp.Other"
    rfl (by decide) ⟨[], [("o/a.jpg", gcameraTags 42)]⟩ rfl).2.2.1

/-- C1 (amended): whenever `convert` runs to completion and the output
path (`output_path` joined with the photo basename) differs from both
input paths, the merged file size is exactly the photo size plus the
video size, and the offset passed to `add_xmp_metadata` is the merged
size minus the photo size. (When the output path collides with the photo
path — output directory equal to the photo directory — the photo is
truncated before being read and the equalities fail; see the
counterexample.) -/
theorem convert_completed_sizes (heicToJpeg : List Nat → List Nat)
    (metaOk : String → Bool) (fs : FS)
    (photo_path video_path output_path : String) (convert_all : Bool)
    (hne1 : joinPath output_path (basename photo_path) ≠ photo_path)
    (hne2 : joinPath output_path (basename photo_path) ≠ video_path)
    (hheic : endsWithS (lowerS photo_path) ".heic" = false) :
    ∀ (out : String) (off : Nat) (fs2 : FS),
      convert heicToJpeg metaOk fs photo_path video_path output_path
          convert_all = (CResult.completed out off, fs2) →
      sizeF fs2 out = sizeF fs photo_path + sizeF fs video_path ∧
      off = sizeF fs2 out - sizeF fs photo_path := by
  intro out off fs2 hconv
  have hag := convert_eq_after_gate heicToJpeg metaOk fs photo_path video_path
    output_path convert_all _ _ hconv (by simp)
  set out0 := joinPath output_path (basename photo_path) with hout0
  unfold convert_after_gate at hag
  have hhs : heic_step heicToJpeg fs photo_path = some (photo_path, fs) := by
    simp [heic_step, hheic]
  rw [hhs] at hag
  dsimp only at hag
  cases h1 : readF (writeF fs out0 []) photo_path with
  | none =>
    have hmerge : merge_files fs photo_path video_path output_path
        = (none, writeF fs out0 []) := by
      unfold merge_files
      dsimp only
      rw [← hout0, h1]
    rw [hmerge] at hag
    simp at hag
  | some pC =>
    cases h2 : readF (writeF fs out0 []) video_path with
    | none =>
      have hmerge : merge_files fs photo_path video_path output_path
          = (none, writeF fs out0 []) := by
        unfold merge_files
        dsimp only
        rw [← hout0, h1, h2]
      rw [hmerge] at hag
      simp at hag
    | some vC =>
      have hmerge : merge_files fs photo_path video_path output_path
          = (some out0, writeF (writeF fs out0 []) out0 (pC ++ vC)) := by
        unfold merge_files
        dsimp only
        rw [← hout0, h1, h2]
      rw [hmerge] at hag
      dsimp only at hag
      set fs3 := writeF (writeF fs out0 []) out0 (pC ++ vC) with hfs3
      cases h3 : add_xmp_metadata metaOk fs3 out0
          (sizeF fs3 out0 - sizeF fs3 photo_path) with
      | none =>
        rw [h3] at hag
        simp at hag
      | some fs4 =>
        rw [h3] at hag
        simp only [Prod.mk.injEq, CResult.completed.injEq] at hag
        obtain ⟨⟨ho, hoff⟩, hfs⟩ := hag
        subst hfs
        rw [readF_writeF_ne _ _ _ _ hne1] at h1
        rw [readF_writeF_ne _ _ _ _ hne2] at h2
        have hsp : sizeF fs photo_path = pC.length := sizeF_of_readF _ _ _ h1
        have hsv : sizeF fs video_path = vC.length := sizeF_of_readF _ _ _ h2
        have hfiles := add_xmp_metadata_files _ _ _ _ _ h3
        have h3p : sizeF fs3 photo_path = pC.length := by
          rw [hfs3, sizeF_writeF_ne _ _ _ _ hne1, sizeF_writeF_ne _ _ _ _ hne1,
            hsp]
        have h3o : sizeF fs3 out0 = pC.length + vC.length := by
          rw [hfs3, sizeF_writeF_same, List.length_append]
        have h4o : sizeF fs4 out0 = pC.length + vC.length := by
          rw [sizeF_files_congr fs4 fs3 hfiles, h3o]
        constructor
        · rw [← ho, h4o, hsp, hsv]
        · rw [← hoff, ← ho, h4o, h3o, h3p, hsp]

/-- C1 witness: a concrete disjoint-path run; sizes 2 and 3 produce a
5-byte output and offset 3. -/
theorem convert_completed_sizes_witness :
    sizeF (convert jpegEnc metaOkAll fsMerge "d/w.jpg" "d/w.mp4" "o"
        false).2 "o/w.jpg"
      = sizeF fsMerge "d/w.jpg" + sizeF fsMerge "d/w.mp4" ∧
    (3 : Nat) = sizeF (convert jpegEnc metaOkAll fsMerge "d/w.jpg" "d/w.mp4"
        "o" false).2 "o/w.jpg" - sizeF fsMerge "d/w.jpg" :=
  convert_completed_sizes jpegEnc metaOkAll fsMerge "d/w.jpg" "d/w.mp4" "o"
    false (by decide) (by decide) (by decide) "o/w.jpg" 3 _ rfl

/-- C1 counterexample: with the photo directory itself used as the output
directory, the output path collides with the photo path; `open(out, "wb")`
truncates the photo before it is read, so the completed output holds only
the video bytes (size 1) instead of photo + video (2 + 1 = 3), and the
offset passed to the metadata writer is 0. -/
theorem convert_completed_sizes_cex :
    (convert jpegEnc metaOkAll fsAliasA "d/a.jpg" "d/a.mp4" "d" false).1
      = CResult.completed "d/a.jpg" 0 ∧
    sizeF (convert jpegEnc metaOkAll fsAliasA "d/a.jpg" "d/a.mp4" "d"
        false).2 "d/a.jpg"
      ≠ sizeF fsAliasA "d/a.jpg" + sizeF fsAliasA "d/a.mp4" := by
  decide

/-- C2 (amended): whenever the output path (`output_path` joined with the
photo basename) differs from both input paths, `merge_files` writes
exactly the photo bytes followed by the video bytes, with no delimiter:
the first `size(photo)` bytes of the output are the photo content and the
rest is the video content. (With the photo's own directory as the output
directory the output path collides with the photo path, the photo is
truncated before being read, and the property fails; see the
counterexample.) -/
theorem merge_files_concat (fs : FS)
    (photo_path video_path output_path : String) (pC vC : List Nat)
    (hne1 : joinPath output_path (basename photo_path) ≠ photo_path)
    (hne2 : joinPath output_path (basename photo_path) ≠ video_path)
    (hp : readF fs photo_path = some pC)
    (hv : readF fs video_path = some vC) :
    ∀ (out : String) (fs2 : FS),
      merge_files fs photo_path video_path output_path = (some out, fs2) →
      readF fs2 out = some (pC ++ vC) ∧
      (pC ++ vC).take pC.length = pC ∧
      (pC ++ vC).drop pC.length = vC := by
  intro out fs2 hm
  set out0 := joinPath output_path (basename photo_path) with hout0
  have h1 : readF (writeF fs out0 []) photo_path = some pC := by
    rw [readF_writeF_ne _ _ _ _ hne1, hp]
  have h2 : readF (writeF fs out0 []) video_path = some vC := by
    rw [readF_writeF_ne _ _ _ _ hne2, hv]
  have hm2 : merge_files fs photo_path video_path output_path
      = (some out0, writeF (writeF fs out0 []) out0 (pC ++ vC)) := by
    unfold merge_files
    dsimp only
    rw [← hout0, h1, h2]
  rw [hm2] at hm
  simp only [Prod.mk.injEq, Option.some.injEq] at hm
  obtain ⟨ho, hfs⟩ := hm
  subst hfs
  refine ⟨?_, List.take_left pC vC, List.drop_left pC vC⟩
  rw [← ho, readF_writeF_same]

/-- C2 witness: a concrete disjoint-path merge produces exactly the
concatenation of the two inputs. -/
theorem merge_files_concat_witness :
    readF (merge_files fsMerge "d/w.jpg" "d/w.mp4" "p2").2 "p2/w.jpg"
      = some ([1, 2] ++ [3, 4, 5]) ∧
    ([1, 2] ++ [3, 4, 5]).take ([1, 2] : List Nat).length = [1, 2] ∧
    ([1, 2] ++ [3, 4, 5]).drop ([1, 2] : List Nat).length = [3, 4, 5] :=
  merge_files_concat fsMerge "d/w.jpg" "d/w.mp4" "p2" [1, 2] [3, 4, 5]
    (by decide) (by decide) rfl rfl "p2/w.jpg" _ rfl

/-- C2 counterexample: with the photo's own directory as the output
directory, the output path equals the photo path; the photo is truncated
by the output open before being read, so the produced file holds only the
video bytes instead of photo bytes followed by video bytes. -/
theorem merge_files_concat_cex :
    (merge_files fsAliasB "e/b.jpg" "e/b.mp4" "e").1 = some "e/b.jpg" ∧
    readF (merge_files fsAliasB "e/b.jpg" "e/b.mp4" "e").2 "e/b.jpg"
      ≠ some ([5, 6] ++ [7]) := by
  decide

/-- C5: a discovered `.heic` + `.mp4` pair never reaches `convert` in the
pipeline — `process_directory` does collect the pair, but `validate_media`
rejects the photo because its extension is not `.jpg`/`.jpeg`, so the run
performs no HEIC-to-JPEG conversion, no mux, and leaves the file system
untouched (no sibling `.jpg` is ever produced). -/
theorem heic_pair_rejected_by_validator :
    process_directory fsHeic "root" false
      = [("root/img2.heic", "root/img2.mp4")] ∧
    validate_media fsHeic "root/img2.heic" "root/img2.mp4" = false ∧
    main_run jpegEnc metaOkAll fsHeic "root" "out" false
      = (false, fsHeic, []) ∧
    exists_file fsHeic "root/img2.jpg" = false := by
  decide

/-- C6: when `validate_media` passes but `convert` skips at the size
gate, `main`'s loop still adds both paths to the processed set, because
the return value of `convert` is ignored — contradicting the claim that
nothing is added on a size-gate skip. The file system is untouched, so
the pair was demonstrably not muxed. -/
theorem run_pairs_adds_on_gate_skip (heicToJpeg : List Nat → List Nat)
    (metaOk : String → Bool) (fs : FS) (out_dir : String)
    (convert_all : Bool) (processed : List String) (p v : String)
    (hval : validate_media fs p v = true)
    (hskip : convert heicToJpeg metaOk fs p v out_dir convert_all
      = (CResult.skipped, fs)) :
    run_pairs heicToJpeg metaOk fs out_dir convert_all processed [(p, v)]
      = (false, fs, processed ++ [p, v]) := by
  unfold run_pairs
  rw [if_pos hval, hskip]
  rfl

/-- C6 witness: a valid pair whose video is exactly 10 MiB + 1 bytes is
skipped by `convert`, yet both paths end up in the processed set. -/
theorem run_pairs_adds_on_gate_skip_witness :
    run_pairs jpegEnc metaOkAll fsGate "o" false [] [("d/g.jpg", "d/g.mp4")]
      = (false, fsGate, ["d/g.jpg", "d/g.mp4"]) :=
  run_pairs_adds_on_gate_skip jpegEnc metaOkAll fsGate "o" false []
    "d/g.jpg" "d/g.mp4" (by decide)
    (by
      have hsz : sizeF fsGate "d/g.mp4" = 10485761 := by
        have h : readF fsGate "d/g.mp4" = some (List.replicate 10485761 0) :=
          rfl
        unfold sizeF
        rw [h, Option.getD_some, List.length_replicate]
      have hcond : exists_file fsGate "d/g.mp4" = false ∨
          10 * 1024 * 1024 < sizeF fsGate "d/g.mp4" := by
        right
        rw [hsz]
        norm_num
      unfold convert
      rw [if_neg (by simp), if_pos hcond])

/-- C7: `process_directory` ignores its `recurse` flag — the `os.walk`
loop always descends into subdirectories — so even with `recurse=False`
(as `main` passes) a pair living in a subdirectory of the root is
discovered and processed, contradicting the claim that subdirectory
pairs are not discovered in the observed flow. -/
theorem process_directory_recurse_ignored :
    process_directory fsTree "root" false
      = [("root/sub/a.jpg", "root/sub/a.mov")] ∧
    process_directory fsTree "root" false
      = process_directory fsTree "root" true ∧
    (main_run jpegEnc metaOkAll fsTree "root" "o" false).2.2
      = ["root/sub/a.jpg", "root/sub/a.mov"] := by
  decide

/-- C9 (amended): per-pair failures are not isolated. When a pair passes
validation and `convert` raises (for example the metadata write fails),
`main`'s loop has no handler: the run aborts at that pair, every
remaining pair in the batch goes unprocessed, and nothing more enters the
processed set. -/
theorem run_pairs_abort_on_failure (heicToJpeg : List Nat → List Nat)
    (metaOk : String → Bool) (fs : FS) (out_dir : String)
    (convert_all : Bool) (processed : List String) (p v : String)
    (rest : List (String × String))
    (hval : validate_media fs p v = true)
    (hfail : (convert heicToJpeg metaOk fs p v out_dir convert_all).1
      = CResult.failed) :
    run_pairs heicToJpeg metaOk fs out_dir convert_all processed
        ((p, v) :: rest)
      = (true,
         (convert heicToJpeg metaOk fs p v out_dir convert_all).2,
         processed) := by
  unfold run_pairs
  rw [if_pos hval]
  cases hc : convert heicToJpeg metaOk fs p v out_dir convert_all with
  | mk r fs1 =>
    rw [hc] at hfail
    dsimp at hfail
    subst hfail
    rfl

/-- C9 witness: a metadata-write failure on the first pair aborts before
any later pair, whatever the rest of the batch holds. -/
theorem run_pairs_abort_on_failure_witness :
    run_pairs jpegEnc metaOkNone fsTwoPairs "o" false []
        [("d/a.jpg", "d/a.mp4"), ("x", "y")]
      = (true,
         (convert jpegEnc metaOkNone fsTwoPairs "d/a.jpg" "d/a.mp4" "o"
            false).2, []) :=
  run_pairs_abort_on_failure jpegEnc metaOkNone fsTwoPairs "o" false []
    "d/a.jpg" "d/a.mp4" [("x", "y")] (by decide) (by decide)

/-- C9 counterexample: two valid pairs, metadata writing failing; the
first pair's failure aborts the batch — the first output was written but
the second valid pair is never attempted (its output does not exist and
nothing was added to the processed set), refuting the claim that one
pair's fatal failure does not affect the rest of the batch. -/
theorem run_pairs_batch_abort_cex :
    (run_pairs jpegEnc metaOkNone fsTwoPairs "o" false []
        [("d/a.jpg", "d/a.mp4"), ("d/b.jpg", "d/b.mp4")]).1 = true ∧
    (run_pairs jpegEnc metaOkNone fsTwoPairs "o" false []
        [("d/a.jpg", "d/a.mp4"), ("d/b.jpg", "d/b.mp4")]).2.2 = [] ∧
    exists_file (run_pairs jpegEnc metaOkNone fsTwoPairs "o" false []
        [("d/a.jpg", "d/a.mp4"), ("d/b.jpg", "d/b.mp4")]).2.1 "o/a.jpg"
      = true ∧
    exists_file (run_pairs jpegEnc metaOkNone fsTwoPairs "o" false []
        [("d/a.jpg", "d/a.mp4"), ("d/b.jpg", "d/b.mp4")]).2.1 "o/b.jpg"
      = false ∧
    validate_media fsTwoPairs "d/b.jpg" "d/b.mp4" = true := by
  decide

/-- C10: when `convert` takes the HEIC branch, the intermediate JPEG is
written at the sibling path `splitext(photo)[0] + ".jpg"` — inside the
photo's own directory, not the output directory — silently overwriting
any pre-existing file there; its content is the re-encoded photo bytes
and it survives whatever happens afterwards (assuming the merge output
path does not collide with that sibling path). -/
theorem convert_heic_writes_sibling_jpeg (heicToJpeg : List Nat → List Nat)
    (metaOk : String → Bool) (fs : FS)
    (photo_path video_path output_path : String) (convert_all : Bool)
    (pC : List Nat)
    (hheic : endsWithS (lowerS photo_path) ".heic" = true)
    (hp : readF fs photo_path = some pC)
    (halias :
      joinPath output_path (basename ((splitextS photo_path).1 ++ ".jpg"))
        ≠ (splitextS photo_path).1 ++ ".jpg") :
    ∀ (r : CResult) (fs2 : FS),
      convert heicToJpeg metaOk fs photo_path video_path output_path
          convert_all = (r, fs2) →
      r ≠ CResult.skipped →
      readF fs2 ((splitextS photo_path).1 ++ ".jpg")
        = some (heicToJpeg pC) := by
  intro r fs2 hconv hr
  have hag := convert_eq_after_gate heicToJpeg metaOk fs photo_path
    video_path output_path convert_all _ _ hconv hr
  unfold convert_after_gate at hag
  have hhs : heic_step heicToJpeg fs photo_path
      = some ((splitextS photo_path).1 ++ ".jpg",
              writeF fs ((splitextS photo_path).1 ++ ".jpg")
                (heicToJpeg pC)) := by
    unfold heic_step
    rw [if_pos hheic, hp]
  rw [hhs] at hag
  dsimp only at hag
  set jp := (splitextS photo_path).1 ++ ".jpg" with hjp
  set fs1 := writeF fs jp (heicToJpeg pC) with hfs1
  set out0 := joinPath output_path (basename jp) with hout0
  have hread1 : readF fs1 jp = some (heicToJpeg pC) := by
    rw [hfs1, readF_writeF_same]
  have h1 : readF (writeF fs1 out0 []) jp = some (heicToJpeg pC) := by
    rw [readF_writeF_ne _ _ _ _ halias, hread1]
  cases h2 : readF (writeF fs1 out0 []) video_path with
  | none =>
    have hmerge : merge_files fs1 jp video_path output_path
        = (none, writeF fs1 out0 []) := by
      unfold merge_files
      dsimp only
      rw [← hout0, h1, h2]
    rw [hmerge] at hag
    simp only [Prod.mk.injEq] at hag
    obtain ⟨_, hfs⟩ := hag
    subst hfs
    exact h1
  | some vC =>
    have hmerge : merge_files fs1 jp video_path output_path
        = (some out0, writeF (writeF fs1 out0 []) out0 (heicToJpeg pC ++ vC))
        := by
      unfold merge_files
      dsimp only
      rw [← hout0, h1, h2]
    rw [hmerge] at hag
    dsimp only at hag
    set fs3 := writeF (writeF fs1 out0 []) out0 (heicToJpeg pC ++ vC)
      with hfs3
    have h3r : readF fs3 jp = some (heicToJpeg pC) := by
      rw [hfs3, readF_writeF_ne _ _ _ _ halias, h1]
    cases h3 : add_xmp_metadata metaOk fs3 out0
        (sizeF fs3 out0 - sizeF fs3 jp) with
    | none =>
      rw [h3] at hag
      simp only [Prod.mk.injEq] at hag
      obtain ⟨_, hfs⟩ := hag
      subst hfs
      exact h3r
    | some fs4 =>
      rw [h3] at hag
      simp only [Prod.mk.injEq] at hag
      obtain ⟨_, hfs⟩ := hag
      subst hfs
      rw [readF_files_congr fs4 fs3 (add_xmp_metadata_files _ _ _ _ _ h3)]
      exact h3r

/-- C10 witness: a `.heic` photo with a pre-existing sibling `.jpg`
(content `[0]`): after `convert`, the sibling holds the re-encoded photo
bytes, overwriting the old content, while the muxed output goes to the
separate output directory. -/
theorem convert_heic_writes_sibling_jpeg_witness :
    readF (convert jpegEnc metaOkAll fsHeicOv "root/img2.heic"
        "root/img2.mp4" "out" true).2 "root/img2.jpg"
      = some (jpegEnc [7, 7]) :=
  convert_heic_writes_sibling_jpeg jpegEnc metaOkAll fsHeicOv
    "root/img2.heic" "root/img2.mp4" "out" true [7, 7]
    (by decide) rfl (by decide)
    (CResult.completed "out/img2.jpg" 1) _ rfl (by decide)

end MPM